import Mathlib

/-!
Verification of the ShortPlay site-scraper plugin
(src/plugins/shortplaylets, a single Python module).

The plugin walks configured monitor directories; each first-level
subdirectory is a candidate title. A candidate is skipped when its name
contains an exclusion keyword or when a `movie.nfo` sidecar already exists.
Otherwise the configured sites are tried in order; the first site returning
a metadata record wins and `_save_files` writes the sidecar, after which a
success notification is sent. We embed the per-candidate pipeline
(`scrape_media` lines 112-156), the site lookup (`_search_site`), the
sidecar writer (`_save_files`) and the module's import/name environment,
and prove the specified properties over them.

Effects are made explicit: the network behaviour of one lookup is a
`Fetch` oracle (request returned nothing, raised, or produced HTML with or
without a matching anchor), the filesystem's willingness to accept the
sidecar write is a `Bool` oracle, and Python exceptions are `Except`
values. Observable actions (lookups, writes, notifications, log warnings)
are recorded as an event trace.
-/

namespace ShortPlay

/-- A configured site as read from the site registry: id, name, base url
and its stored cookie (the empty string stands for Python-falsy
`site.cookie`). -/
structure Site where
  id : Nat
  name : String
  url : String
  cookie : String
  deriving DecidableEq, Repr

/-- The dictionary `_search_site` returns on success: keys `title`, `plot`,
`poster_url`, each possibly absent (`meta.get` is used with defaults by
`_save_files`). -/
structure MetadataRecord where
  title : Option String
  plot : Option String
  poster : Option String
  deriving DecidableEq, Repr

/-- Python `pat in s` on the underlying character lists: `pat` occurs as a
contiguous substring. -/
def charsContains : List Char → List Char → Bool
  | pat, [] => pat.isEmpty
  | pat, c :: cs => pat.isPrefixOf (c :: cs) || charsContains pat cs

/-- Python's substring test `pat in s` (case-sensitive). -/
def pyIn (pat s : String) : Bool :=
  charsContains pat.data s.data

/-- Helper for `pySplitComma`, structural on the character list. -/
def pySplitCommaAux : List Char → List Char → List String
  | [], acc => [String.mk acc.reverse]
  | c :: cs, acc =>
    if c = ',' then String.mk acc.reverse :: pySplitCommaAux cs []
    else pySplitCommaAux cs (c :: acc)

/-- Python's `s.split(",")`: `"" ↦ [""]`, `"a," ↦ ["a", ""]`,
`"a,b" ↦ ["a", "b"]`. -/
def pySplitComma (s : String) : List String :=
  pySplitCommaAux s.data []

/-- The exclusion check of `scrape_media` line 123:
`self._exclude_keywords and any(keyword in dir_name for keyword in
self._exclude_keywords.split(","))`. The leading conjunct is Python
truthiness of the configuration string. -/
def excluded (ek dirName : String) : Bool :=
  if ek = "" then false
  else (pySplitComma ek).any (fun k => pyIn k dirName)

/-- The behaviour of the outside world during one `_search_site` call:
the request returned a falsy response (`noRes`), some step inside the
`try` block raised (`exn`), or HTML came back and the anchor search for
the keyword found a match or not (`html`). -/
inductive Fetch where
  | noRes
  | exn (msg : String)
  | html (found : Bool)
  deriving DecidableEq, Repr

/-- The body of `_search_site`'s `try` block (lines 167-189): build the
search URL, issue the request, parse the HTML. A raise is an `.error`;
otherwise the block yields the record for a matching anchor (title is the
keyword, plot attributes the synopsis to the site name, no poster) or
`none`. -/
def search_site_body (site : Site) (keyword : String) (w : Fetch) :
    Except String (Option MetadataRecord) :=
  match w with
  | .noRes => .ok none
  | .exn msg => .error msg
  | .html found =>
      .ok (if found then
        some { title := some keyword,
               plot := some ("来自 " ++ site.name ++ " 的剧情简介"),
               poster := none }
      else none)

/-- `_search_site` (lines 158-193): the `try` body with the
`except Exception` handler that logs and falls through to `return None`. -/
def search_site (site : Site) (keyword : String) (w : Fetch) :
    Except String (Option MetadataRecord) :=
  match search_site_body site keyword w with
  | .ok r => .ok r
  | .error _ => .ok none

/-- The value `_search_site` hands back to `scrape_media` (its run never
being an exception, the default branch is unreachable). -/
def search_site_val (site : Site) (keyword : String) (w : Fetch) :
    Option MetadataRecord :=
  match search_site site keyword w with
  | .ok r => r
  | .error _ => none

/-- The XML document `_save_files` builds: a root tag and its child
elements as (tag, text) pairs in order. -/
structure NfoDoc where
  rootTag : String
  children : List (String × String)
  deriving DecidableEq, Repr

/-- The element tree `_save_files` constructs (lines 200-204): root
`movie`, a `title` child from `meta.get("title", title)` and a `plot`
child from `meta.get("plot", "")`. -/
def save_files_doc (title : String) (meta : MetadataRecord) : NfoDoc :=
  { rootTag := "movie",
    children := [("title", meta.title.getD title), ("plot", meta.plot.getD "")] }

/-- `_save_files` (lines 195-206): builds the tree and calls `tree.write`.
The function contains no exception handler, so when the filesystem refuses
the write (`writeOk = false`) the OSError raised by `tree.write`
propagates to the caller. -/
def save_files (writeOk : Bool) (title : String) (meta : MetadataRecord) :
    Except String NfoDoc :=
  if writeOk then .ok (save_files_doc title meta) else .error "OSError"

/-- Reading one child element's text back from a sidecar document. -/
def findChildText (doc : NfoDoc) (tag : String) : Option String :=
  (doc.children.find? (fun c => c.fst == tag)).map Prod.snd

/-- Terminal state of one candidate in a pass. -/
inductive CState where
  | skippedExcluded
  | skippedNfo
  | resolved
  | unresolved
  deriving DecidableEq, Repr

/-- Observable actions of the pipeline on one candidate: a site lookup
(`_search_site` call), a sidecar write, a `send_message` notification, a
`logger.warn`. -/
inductive Event where
  | lookup (sid : Nat)
  | write (doc : NfoDoc)
  | notify (title text : String)
  | logWarn (msg : String)
  deriving DecidableEq, Repr

def isLookupEv : Event → Bool
  | .lookup _ => true
  | _ => false

def isWriteEv : Event → Bool
  | .write _ => true
  | _ => false

def isNotifyEv : Event → Bool
  | .notify _ _ => true
  | _ => false

/-- Site resolution inside the loop (lines 136-139): the first site of
`all_sites` with the configured id, then the `if not site or not
site.cookie: continue` guard. -/
def eligibleSite (allSites : List Site) (sid : Nat) : Option Site :=
  match allSites.find? (fun s => s.id == sid) with
  | none => none
  | some site => if site.cookie = "" then none else some site

/-- The site loop of `scrape_media` (lines 135-146) up to the save: walk
the configured site ids in order, skip ineligible ones, call
`_search_site` on each eligible one and stop at the first non-absent
record. Returns the lookup events in order and the winning (id, record)
when there is one. -/
def trySources (allSites : List Site) (dirName : String) (w : Nat → Fetch) :
    List Nat → List Event × Option (Nat × MetadataRecord)
  | [] => ([], none)
  | sid :: rest =>
    match eligibleSite allSites sid with
    | none => trySources allSites dirName w rest
    | some site =>
      match search_site_val site dirName (w sid) with
      | some m => ([Event.lookup sid], some (sid, m))
      | none =>
        (Event.lookup sid :: (trySources allSites dirName w rest).1,
         (trySources allSites dirName w rest).2)

/-- Processing of one candidate directory in `scrape_media` (lines
122-156): the exclusion check, the `movie.nfo` pre-existence check
(`hasNfo`), the site loop, the `_save_files` call for a winning record
(whose raised OSError, uncaught, makes the whole computation an
exception), the success notification, and the warning log when every site
failed. -/
def process_candidate (ek : String) (cfg : List Nat) (allSites : List Site)
    (w : Nat → Fetch) (writeOk : Bool) (dirName : String) (hasNfo : Bool) :
    Except String (CState × List Event) :=
  if excluded ek dirName then .ok (CState.skippedExcluded, [])
  else if hasNfo then .ok (CState.skippedNfo, [])
  else
    match trySources allSites dirName w cfg with
    | (evs, some (_, m)) =>
      match save_files writeOk dirName m with
      | .ok doc =>
          .ok (CState.resolved,
            evs ++ [Event.write doc,
                    Event.notify "短剧刮削成功" ("《" ++ dirName ++ "》元数据已更新")])
      | .error e => .error e
    | (evs, none) =>
        .ok (CState.unresolved, evs ++ [Event.logWarn (dirName ++ " 所有站点刮削失败")])

/-- One pass of `scrape_media` over its candidate directories, each given
as (name, movie.nfo already present). The loop has no per-candidate
exception handler, so an exception raised while processing one candidate
aborts the pass. Oracles are per-candidate. -/
def run_pass (ek : String) (cfg : List Nat) (allSites : List Site)
    (w : String → Nat → Fetch) (writeOk : String → Bool) :
    List (String × Bool) → Except String (List (CState × List Event))
  | [] => .ok []
  | (dirName, hasNfo) :: rest =>
    match process_candidate ek cfg allSites (w dirName) (writeOk dirName) dirName hasNfo with
    | .ok r =>
      match run_pass ek cfg allSites w writeOk rest with
      | .ok rs => .ok (r :: rs)
      | .error e => .error e
    | .error e => .error e

/-- Whether the candidate's directory contains `movie.nfo` after a pass
whose events were `evs`: it did before, or a sidecar write happened. -/
def afterPassHasNfo (hasNfo : Bool) (evs : List Event) : Bool :=
  hasNfo || evs.any isWriteEv

/-- Every configured source is absent for this candidate: each eligible
site's lookup returns no record. -/
def allSourcesAbsent (allSites : List Site) (dirName : String)
    (w : Nat → Fetch) (cfg : List Nat) : Bool :=
  cfg.all (fun s =>
    match eligibleSite allSites s with
    | some site => (search_site_val site dirName (w s)).isNone
    | none => true)

/-- The names bound at module top level by the import statements of
src/plugins/shortplaylets/__init__.py (lines 6-22), in order. -/
def moduleImportedNames : List String :=
  ["os", "re", "json", "ET", "Dict", "Any", "List", "Tuple", "_PluginBase",
   "settings", "logger", "NotificationType", "SiteOper", "SitesHelper",
   "RequestUtils", "SystemUtils", "Singleton", "DomUtils", "BeautifulSoup",
   "urllib"]

/-- The free (global) names referenced by the first executable top-level
statement after the imports, `lock = threading.Lock()` (line 25). -/
def moduleTopLevelRefs : List String := ["threading"]

/-- Global names `init_plugin` references to start the scheduler and the
one-shot thread (lines 65 and 80): `BackgroundScheduler(...)` and
`threading.Thread(...)`. -/
def initPluginSchedulerRefs : List String := ["BackgroundScheduler", "threading"]

/-- Outcome of executing the module's top level. -/
inductive ModuleInit where
  | ok
  | nameError (n : String)
  deriving DecidableEq, Repr

/-- Executing the module top level: the statement `lock =
threading.Lock()` runs right after the imports and raises `NameError` on
its first name that no import bound. -/
def importPluginModule : ModuleInit :=
  match moduleTopLevelRefs.filter (fun n => !moduleImportedNames.contains n) with
  | [] => .ok
  | n :: _ => .nameError n

/-! Helper lemmas. -/

theorem charsContains_nil (l : List Char) : charsContains [] l = true := by
  cases l <;> simp [charsContains, List.isPrefixOf]

theorem pyIn_empty_pat (s : String) : pyIn "" s = true :=
  charsContains_nil s.data

theorem excluded_of_mem (ek dirName k : String) (hne : ek ≠ "")
    (hk : k ∈ pySplitComma ek) (hsub : pyIn k dirName = true) :
    excluded ek dirName = true := by
  unfold excluded
  rw [if_neg hne]
  exact List.any_eq_true.mpr ⟨k, hk, hsub⟩

theorem process_skip_excluded (ek : String) (cfg : List Nat) (allSites : List Site)
    (w : Nat → Fetch) (wk : Bool) (dirName : String) (hasNfo : Bool)
    (h : excluded ek dirName = true) :
    process_candidate ek cfg allSites w wk dirName hasNfo =
      Except.ok (CState.skippedExcluded, []) := by
  simp [process_candidate, h]

theorem process_hasNfo (ek : String) (cfg : List Nat) (allSites : List Site)
    (w : Nat → Fetch) (wk : Bool) (dirName : String) :
    ∃ st, process_candidate ek cfg allSites w wk dirName true = Except.ok (st, ([] : List Event))
      ∧ (st = CState.skippedExcluded ∨ st = CState.skippedNfo) := by
  cases hex : excluded ek dirName with
  | true => exact ⟨CState.skippedExcluded, by simp [process_candidate, hex], Or.inl rfl⟩
  | false => exact ⟨CState.skippedNfo, by simp [process_candidate, hex], Or.inr rfl⟩

theorem trySources_lookups (allSites : List Site) (dirName : String) (w : Nat → Fetch) :
    ∀ cfg, ∀ e ∈ (trySources allSites dirName w cfg).1, ∃ s, e = Event.lookup s := by
  intro cfg
  induction cfg with
  | nil => simp [trySources]
  | cons sid rest ih =>
    cases hel : eligibleSite allSites sid with
    | none => simpa [trySources, hel] using ih
    | some site =>
      cases hs : search_site_val site dirName (w sid) with
      | some m =>
        simp only [trySources, hel, hs]
        intro e he
        simp only [List.mem_cons, List.not_mem_nil, or_false] at he
        exact ⟨sid, he⟩
      | none =>
        simp only [trySources, hel, hs]
        intro e he
        simp only [List.mem_cons] at he
        rcases he with h | h
        · exact ⟨sid, h⟩
        · exact ih e h

theorem countP_zero_of_lookups (p : Event → Bool) (hp : ∀ s, p (Event.lookup s) = false)
    (evs : List Event) (h : ∀ e ∈ evs, ∃ s, e = Event.lookup s) :
    evs.countP p = 0 := by
  refine List.countP_eq_zero.mpr (fun e he => ?_)
  obtain ⟨s, rfl⟩ := h e he
  simp [hp]

theorem trySources_absent_append (allSites : List Site) (dirName : String)
    (w : Nat → Fetch) (rest : List Nat) :
    ∀ cfg1, allSourcesAbsent allSites dirName w cfg1 = true →
      trySources allSites dirName w (cfg1 ++ rest) =
        ((cfg1.filter (fun s => (eligibleSite allSites s).isSome)).map Event.lookup
            ++ (trySources allSites dirName w rest).1,
         (trySources allSites dirName w rest).2) := by
  intro cfg1
  induction cfg1 with
  | nil => intro _; simp
  | cons s cfg1 ih =>
    intro h
    have h' := h
    simp only [allSourcesAbsent, List.all_cons, Bool.and_eq_true] at h'
    obtain ⟨hhead, htail⟩ := h'
    have htail' : allSourcesAbsent allSites dirName w cfg1 = true := htail
    cases hel : eligibleSite allSites s with
    | none =>
      simp [trySources, hel, List.filter_cons, ih htail']
    | some site =>
      rw [hel] at hhead
      simp at hhead
      simp [trySources, hel, hhead, List.filter_cons, ih htail']

theorem trySources_absent (allSites : List Site) (dirName : String)
    (w : Nat → Fetch) (cfg : List Nat)
    (h : allSourcesAbsent allSites dirName w cfg = true) :
    trySources allSites dirName w cfg =
      ((cfg.filter (fun s => (eligibleSite allSites s).isSome)).map Event.lookup, none) := by
  have := trySources_absent_append allSites dirName w [] cfg h
  simpa [trySources] using this

theorem trySources_hit (allSites : List Site) (dirName : String) (w : Nat → Fetch)
    (sid : Nat) (site : Site) (m : MetadataRecord) (cfg2 : List Nat)
    (hel : eligibleSite allSites sid = some site)
    (hhit : search_site_val site dirName (w sid) = some m) :
    trySources allSites dirName w (sid :: cfg2) = ([Event.lookup sid], some (sid, m)) := by
  simp [trySources, hel, hhit]

theorem process_cases (ek : String) (cfg : List Nat) (allSites : List Site)
    (w : Nat → Fetch) (wk : Bool) (dirName : String) (hasNfo : Bool)
    (st : CState) (evs : List Event)
    (h : process_candidate ek cfg allSites w wk dirName hasNfo = Except.ok (st, evs)) :
    (st = CState.skippedExcluded ∧ evs = [])
    ∨ (st = CState.skippedNfo ∧ evs = [])
    ∨ (∃ tevs sid m, trySources allSites dirName w cfg = (tevs, some (sid, m))
        ∧ wk = true ∧ st = CState.resolved
        ∧ evs = tevs ++ [Event.write (save_files_doc dirName m),
                         Event.notify "短剧刮削成功" ("《" ++ dirName ++ "》元数据已更新")])
    ∨ (∃ tevs, trySources allSites dirName w cfg = (tevs, none)
        ∧ st = CState.unresolved
        ∧ evs = tevs ++ [Event.logWarn (dirName ++ " 所有站点刮削失败")]) := by
  cases hex : excluded ek dirName with
  | true =>
    simp [process_candidate, hex] at h
    exact Or.inl ⟨h.1.symm, h.2⟩
  | false =>
    cases hasNfo with
    | true =>
      simp [process_candidate, hex] at h
      exact Or.inr (Or.inl ⟨h.1.symm, h.2⟩)
    | false =>
      rcases ht : trySources allSites dirName w cfg with ⟨tevs, r⟩
      cases r with
      | none =>
        simp [process_candidate, hex, ht] at h
        exact Or.inr (Or.inr (Or.inr ⟨tevs, rfl, h.1.symm, h.2.symm⟩))
      | some p =>
        rcases p with ⟨sid, m⟩
        cases hwk : wk with
        | false =>
          simp [process_candidate, hex, ht, save_files, hwk] at h
        | true =>
          simp [process_candidate, hex, ht, save_files, hwk] at h
          exact Or.inr (Or.inr (Or.inl ⟨tevs, sid, m, rfl, rfl, h.1.symm, h.2.symm⟩))

/-! Claim theorems. -/

/-- C1, counterexample. With one configured site that returns a record and
a filesystem that refuses the write, `_save_files` does not return a
failure result — it raises (`Except.error`), and the error propagates out
of the whole pass (`run_pass`), so the second candidate is never
processed. This refutes the claim that a write failure is logged and
contained per candidate. -/
theorem c1_counterexample :
    save_files false "甲" ⟨some "甲", some "来自 S 的剧情简介", none⟩ = Except.error "OSError"
    ∧ run_pass "" [1] [⟨1, "S", "u", "c"⟩] (fun _ _ => Fetch.html true) (fun _ => false)
        [("甲", false), ("乙", false)] = Except.error "OSError" :=
  ⟨rfl, rfl⟩

/-- C1, amended. If the sidecar write fails for a candidate that some
source resolved, the OSError raised by `tree.write` is caught nowhere:
`process_candidate` is an exception and the pass over the candidate list
aborts with that exception, which thus reaches the scheduling layer; the
remaining candidates are not processed. -/
theorem c1_amended (ek : String) (cfg : List Nat) (allSites : List Site)
    (w : String → Nat → Fetch) (wk : String → Bool) (dirName : String)
    (rest : List (String × Bool)) (evs : List Event) (sid : Nat) (m : MetadataRecord)
    (hexc : excluded ek dirName = false)
    (hhit : trySources allSites dirName (w dirName) cfg = (evs, some (sid, m)))
    (hwk : wk dirName = false) :
    run_pass ek cfg allSites w wk ((dirName, false) :: rest) = Except.error "OSError" := by
  have hproc : process_candidate ek cfg allSites (w dirName) (wk dirName) dirName false
      = Except.error "OSError" := by
    simp [process_candidate, hexc, hhit, save_files, hwk]
  simp [run_pass, hproc]

/-- C1, witness for the amended theorem at a concrete input. -/
theorem c1_witness :
    run_pass "" [1] [⟨1, "S", "u", "c"⟩] (fun _ _ => Fetch.html true) (fun _ => false)
      [("乙", false)] = Except.error "OSError" :=
  c1_amended "" [1] [⟨1, "S", "u", "c"⟩] (fun _ _ => Fetch.html true) (fun _ => false)
    "乙" [] [Event.lookup 1] 1 ⟨some "乙", some "来自 S 的剧情简介", none⟩
    rfl rfl rfl

/-- C2, counterexample. A candidate whose only configured site returns
absent reaches the terminal state Unresolved, and its event trace holds
zero notification messages (only a log warning): the claim that every
terminal candidate emits exactly one notification is false. -/
theorem c2_counterexample :
    process_candidate "" [1] [⟨1, "S", "u", "c"⟩] (fun _ => Fetch.noRes) true "甲" false
      = Except.ok (CState.unresolved, [Event.lookup 1, Event.logWarn "甲 所有站点刮削失败"])
    ∧ List.countP isNotifyEv [Event.lookup 1, Event.logWarn "甲 所有站点刮削失败"] = 0 :=
  ⟨rfl, rfl⟩

/-- C2, amended. A candidate that reaches a terminal state emits exactly
one notification message when it is Resolved and none otherwise; an
Unresolved candidate only gets a log warning. -/
theorem c2_amended (ek : String) (cfg : List Nat) (allSites : List Site)
    (w : Nat → Fetch) (wk : Bool) (dirName : String) (hasNfo : Bool)
    (st : CState) (evs : List Event)
    (h : process_candidate ek cfg allSites w wk dirName hasNfo = Except.ok (st, evs)) :
    List.countP isNotifyEv evs = (if st = CState.resolved then 1 else 0) := by
  have hlk := trySources_lookups allSites dirName w cfg
  rcases process_cases ek cfg allSites w wk dirName hasNfo st evs h with
    ⟨hst, hevs⟩ | ⟨hst, hevs⟩ | ⟨tevs, sid, m, ht, _, hst, hevs⟩ | ⟨tevs, ht, hst, hevs⟩
  · subst hst hevs; simp
  · subst hst hevs; simp
  · subst hst hevs
    have h0 : List.countP isNotifyEv tevs = 0 := by
      refine countP_zero_of_lookups isNotifyEv (fun s => rfl) tevs (fun e he => ?_)
      exact hlk e (by rw [ht]; exact he)
    simp [List.countP_append, h0, List.countP_cons, isNotifyEv]
  · subst hst hevs
    have h0 : List.countP isNotifyEv tevs = 0 := by
      refine countP_zero_of_lookups isNotifyEv (fun s => rfl) tevs (fun e he => ?_)
      exact hlk e (by rw [ht]; exact he)
    simp [List.countP_append, h0, List.countP_cons, isNotifyEv]

/-- C2, witness for the amended theorem at a concrete resolved input. -/
theorem c2_witness :
    List.countP isNotifyEv
        [Event.lookup 1,
         Event.write ⟨"movie", [("title", "乙"), ("plot", "来自 S 的剧情简介")]⟩,
         Event.notify "短剧刮削成功" "《乙》元数据已更新"]
      = (if CState.resolved = CState.resolved then 1 else 0) :=
  c2_amended "" [1] [⟨1, "S", "u", "c"⟩] (fun _ => Fetch.html true) true "乙" false
    CState.resolved
    [Event.lookup 1,
     Event.write ⟨"movie", [("title", "乙"), ("plot", "来自 S 的剧情简介")]⟩,
     Event.notify "短剧刮削成功" "《乙》元数据已更新"]
    rfl

/-- C3. A candidate whose directory already holds `movie.nfo`
(`afterPassHasNfo hasNfo evs = true` via either disjunct of the
hypothesis: it held the file before the pass, or the pass just resolved it
and wrote the sidecar) is a no-op on the next pass: whatever the source
oracles do, processing returns an empty event trace — zero source lookups,
zero sidecar writes — through one of the two skip states. In particular
re-running a pass after a successful pass is a no-op for every previously
resolved candidate. -/
theorem c3 (ek : String) (cfg : List Nat) (allSites : List Site)
    (w w₂ : Nat → Fetch) (wk wk₂ : Bool) (dirName : String) (hasNfo : Bool)
    (st : CState) (evs : List Event)
    (h : hasNfo = true
      ∨ (process_candidate ek cfg allSites w wk dirName hasNfo = Except.ok (st, evs)
          ∧ st = CState.resolved)) :
    ∃ st₁, process_candidate ek cfg allSites w₂ wk₂ dirName (afterPassHasNfo hasNfo evs)
        = Except.ok (st₁, ([] : List Event))
      ∧ (st₁ = CState.skippedExcluded ∨ st₁ = CState.skippedNfo) := by
  have hnfo : afterPassHasNfo hasNfo evs = true := by
    rcases h with h | ⟨hp, hst⟩
    · simp [afterPassHasNfo, h]
    · rcases process_cases ek cfg allSites w wk dirName hasNfo st evs hp with
        ⟨h1, _⟩ | ⟨h1, _⟩ | ⟨tevs, sid, m, _, _, _, hevs⟩ | ⟨tevs, _, h1, _⟩
      · rw [hst] at h1; cases h1
      · rw [hst] at h1; cases h1
      · subst hevs
        simp [afterPassHasNfo, List.any_append, isWriteEv]
      · rw [hst] at h1; cases h1
  rw [hnfo]
  exact process_hasNfo ek cfg allSites w₂ wk₂ dirName

/-- C3, witness at a concrete input (the sidecar already present). -/
theorem c3_witness :
    ∃ st₁, process_candidate "" [1] [⟨1, "S", "u", "c"⟩] (fun _ => Fetch.html true) true "甲"
        (afterPassHasNfo true []) = Except.ok (st₁, ([] : List Event))
      ∧ (st₁ = CState.skippedExcluded ∨ st₁ = CState.skippedNfo) :=
  c3 "" [1] [⟨1, "S", "u", "c"⟩] (fun _ => Fetch.html true) (fun _ => Fetch.html true)
    true true "甲" true CState.resolved [] (Or.inl rfl)

/-- C4. Sources are tried strictly in the configured order and the first
non-absent record wins: when every site before `sid` in the configured
list is absent (or ineligible) and `sid`'s lookup returns the record `m`,
the site loop queries exactly the eligible earlier sites and then `sid` —
no site after `sid` is queried — and yields `m`; the candidate resolves
with exactly that record written as the sidecar; and for any
configuration, at most one sidecar write occurs per candidate per pass. -/
theorem c4 (ek dirName : String) (allSites : List Site) (w : Nat → Fetch)
    (cfg1 cfg2 : List Nat) (sid : Nat) (site : Site) (m : MetadataRecord)
    (hsite : eligibleSite allSites sid = some site)
    (hhit : search_site_val site dirName (w sid) = some m)
    (hmiss : allSourcesAbsent allSites dirName w cfg1 = true)
    (hexc : excluded ek dirName = false) :
    trySources allSites dirName w (cfg1 ++ sid :: cfg2) =
      ((cfg1.filter (fun s => (eligibleSite allSites s).isSome)).map Event.lookup
          ++ [Event.lookup sid], some (sid, m))
    ∧ process_candidate ek (cfg1 ++ sid :: cfg2) allSites w true dirName false =
        Except.ok (CState.resolved,
          ((cfg1.filter (fun s => (eligibleSite allSites s).isSome)).map Event.lookup
              ++ [Event.lookup sid])
            ++ [Event.write (save_files_doc dirName m),
                Event.notify "短剧刮削成功" ("《" ++ dirName ++ "》元数据已更新")])
    ∧ (∀ cfg wk hasNfo st evs,
        process_candidate ek cfg allSites w wk dirName hasNfo = Except.ok (st, evs) →
          List.countP isWriteEv evs ≤ 1) := by
  have htry : trySources allSites dirName w (cfg1 ++ sid :: cfg2) =
      ((cfg1.filter (fun s => (eligibleSite allSites s).isSome)).map Event.lookup
          ++ [Event.lookup sid], some (sid, m)) := by
    rw [trySources_absent_append allSites dirName w (sid :: cfg2) cfg1 hmiss,
        trySources_hit allSites dirName w sid site m cfg2 hsite hhit]
  refine ⟨htry, ?_, ?_⟩
  · simp [process_candidate, hexc, htry, save_files]
  · intro cfg wk hasNfo st evs h
    have hlk := trySources_lookups allSites dirName w cfg
    rcases process_cases ek cfg allSites w wk dirName hasNfo st evs h with
      ⟨_, hevs⟩ | ⟨_, hevs⟩ | ⟨tevs, sid', m', ht, _, _, hevs⟩ | ⟨tevs, ht, _, hevs⟩
    · subst hevs; simp
    · subst hevs; simp
    · subst hevs
      have h0 : List.countP isWriteEv tevs = 0 := by
        refine countP_zero_of_lookups isWriteEv (fun s => rfl) tevs (fun e he => ?_)
        exact hlk e (by rw [ht]; exact he)
      simp [List.countP_append, h0, List.countP_cons, isWriteEv]
    · subst hevs
      have h0 : List.countP isWriteEv tevs = 0 := by
        refine countP_zero_of_lookups isWriteEv (fun s => rfl) tevs (fun e he => ?_)
        exact hlk e (by rw [ht]; exact he)
      simp [List.countP_append, h0, List.countP_cons, isWriteEv]

/-- C4, witness at a concrete input: site 2 has no cookie, site 3 misses,
site 1 hits, site 9 comes later and is never queried. -/
theorem c4_witness :
    trySources [⟨1, "S1", "u1", "c1"⟩, ⟨2, "S2", "u2", ""⟩, ⟨3, "S3", "u3", "c3"⟩] "甲"
        (fun s => if s = 1 then Fetch.html true else Fetch.noRes) ([2, 3] ++ 1 :: [9]) =
      (([2, 3].filter (fun s =>
            (eligibleSite [⟨1, "S1", "u1", "c1"⟩, ⟨2, "S2", "u2", ""⟩, ⟨3, "S3", "u3", "c3"⟩]
              s).isSome)).map Event.lookup
          ++ [Event.lookup 1], some (1, ⟨some "甲", some "来自 S1 的剧情简介", none⟩)) :=
  (c4 "" "甲" [⟨1, "S1", "u1", "c1"⟩, ⟨2, "S2", "u2", ""⟩, ⟨3, "S3", "u3", "c3"⟩]
    (fun s => if s = 1 then Fetch.html true else Fetch.noRes)
    [2, 3] [9] 1 ⟨1, "S1", "u1", "c1"⟩ ⟨some "甲", some "来自 S1 的剧情简介", none⟩
    rfl rfl (by decide) rfl).1

/-- C5. A candidate whose directory name contains (case-sensitive
substring) some keyword of the comma-separated exclusion list is skipped
outright: no source lookup, no sidecar write, whatever the sources would
have returned. -/
theorem c5 (ek : String) (cfg : List Nat) (allSites : List Site) (w : Nat → Fetch)
    (wk : Bool) (dirName k : String) (hasNfo : Bool)
    (hne : ek ≠ "") (hk : k ∈ pySplitComma ek) (hsub : pyIn k dirName = true) :
    process_candidate ek cfg allSites w wk dirName hasNfo =
      Except.ok (CState.skippedExcluded, []) :=
  process_skip_excluded ek cfg allSites w wk dirName hasNfo
    (excluded_of_mem ek dirName k hne hk hsub)

/-- C5, witness: the default keyword list and a name containing 预告, with
a source that would have returned a record. -/
theorem c5_witness :
    process_candidate "预告,花絮" [1] [⟨1, "S", "u", "c"⟩] (fun _ => Fetch.html true)
      true "A预告" false = Except.ok (CState.skippedExcluded, []) :=
  c5 "预告,花絮" [1] [⟨1, "S", "u", "c"⟩] (fun _ => Fetch.html true) true "A预告" "预告"
    false (by decide) (by decide) (by decide)

/-- C6. When every configured source is absent for a non-excluded
candidate without a sidecar, the candidate ends the pass Unresolved, the
failure is logged, no sidecar write occurs, and the directory still lacks
`movie.nfo` after the pass — so the candidate is not marked and will be
processed again on the next pass. -/
theorem c6 (ek : String) (cfg : List Nat) (allSites : List Site) (w : Nat → Fetch)
    (wk : Bool) (dirName : String)
    (hexc : excluded ek dirName = false)
    (hmiss : allSourcesAbsent allSites dirName w cfg = true) :
    process_candidate ek cfg allSites w wk dirName false =
      Except.ok (CState.unresolved,
        (cfg.filter (fun s => (eligibleSite allSites s).isSome)).map Event.lookup
          ++ [Event.logWarn (dirName ++ " 所有站点刮削失败")])
    ∧ List.countP isWriteEv
        ((cfg.filter (fun s => (eligibleSite allSites s).isSome)).map Event.lookup
          ++ [Event.logWarn (dirName ++ " 所有站点刮削失败")]) = 0
    ∧ afterPassHasNfo false
        ((cfg.filter (fun s => (eligibleSite allSites s).isSome)).map Event.lookup
          ++ [Event.logWarn (dirName ++ " 所有站点刮削失败")]) = false := by
  have h0 : List.countP isWriteEv
      ((cfg.filter (fun s => (eligibleSite allSites s).isSome)).map Event.lookup) = 0 := by
    refine countP_zero_of_lookups isWriteEv (fun s => rfl) _ (fun e he => ?_)
    rcases List.mem_map.mp he with ⟨s, _, rfl⟩
    exact ⟨s, rfl⟩
  refine ⟨?_, ?_, ?_⟩
  · simp [process_candidate, hexc, trySources_absent allSites dirName w cfg hmiss]
  · simp [List.countP_append, h0, List.countP_cons, isWriteEv]
  · simp [afterPassHasNfo]
    constructor
    · intro e s _ _ he
      subst he
      rfl
    · rfl

/-- C6, witness at a concrete input: two configured sites, one missing
from the registry, the other returning no result. -/
theorem c6_witness :
    process_candidate "" [1, 2] [⟨1, "S", "u", "c"⟩] (fun _ => Fetch.noRes) true "甲" false =
      Except.ok (CState.unresolved,
        (([1, 2].filter (fun s => (eligibleSite [⟨1, "S", "u", "c"⟩] s).isSome)).map
            Event.lookup)
          ++ [Event.logWarn ("甲" ++ " 所有站点刮削失败")]) :=
  (c6 "" [1, 2] [⟨1, "S", "u", "c"⟩] (fun _ => Fetch.noRes) true "甲" rfl (by decide)).1

/-- C7. `_search_site` never raises: whatever the transport does —
request returning nothing, any exception while building the URL, issuing
the request or parsing, or HTML with or without a match — the call is a
normal return of its value, and every exception in the body is converted
to the absent result. -/
theorem c7 (site : Site) (keyword : String) :
    (∀ w, search_site site keyword w = Except.ok (search_site_val site keyword w))
    ∧ (∀ msg, search_site site keyword (Fetch.exn msg) = Except.ok none) := by
  constructor
  · intro w; cases w <;> rfl
  · intro msg; rfl

/-- C8. The sidecar built for a record with title X and plot Y is a single
`movie` document with exactly the children `title` and `plot`; reading it
back yields X and Y; and a record with a missing plot serializes as a
`plot` element with empty text, not as an absent element. -/
theorem c8 (dirTitle x y : String) :
    (save_files_doc dirTitle ⟨some x, some y, none⟩).rootTag = "movie"
    ∧ (save_files_doc dirTitle ⟨some x, some y, none⟩).children.map Prod.fst
        = ["title", "plot"]
    ∧ findChildText (save_files_doc dirTitle ⟨some x, some y, none⟩) "title" = some x
    ∧ findChildText (save_files_doc dirTitle ⟨some x, some y, none⟩) "plot" = some y
    ∧ (∀ t : Option String,
        findChildText (save_files_doc dirTitle ⟨t, none, none⟩) "plot" = some "") :=
  ⟨rfl, rfl, rfl, rfl, fun _ => rfl⟩

/-- C9. The plugin module never imports: its import statements bind the
twenty names listed in `moduleImportedNames`, `threading` is not among
them, and the first top-level statement `lock = threading.Lock()`
references `threading`, so executing the module raises NameError there —
hence no operation of the plugin is reachable. `init_plugin` likewise
references the unbound `BackgroundScheduler` and `threading`. -/
theorem c9 :
    importPluginModule = ModuleInit.nameError "threading"
    ∧ ∀ n ∈ initPluginSchedulerRefs, n ∉ moduleImportedNames := by
  decide

/-- C10. If the exclusion configuration is non-empty but splitting it on
commas yields an empty keyword (for example a trailing comma), every
candidate matches the exclusion check — the empty string is a substring of
every name — and the whole pass skips every candidate with zero lookups
and zero writes. -/
theorem c10 (ek : String) (cfg : List Nat) (allSites : List Site)
    (w : String → Nat → Fetch) (wk : String → Bool) (cands : List (String × Bool))
    (hne : ek ≠ "") (hempty : "" ∈ pySplitComma ek) :
    ∃ rs, run_pass ek cfg allSites w wk cands = Except.ok rs
      ∧ ∀ r ∈ rs, r = (CState.skippedExcluded, ([] : List Event)) := by
  induction cands with
  | nil => exact ⟨[], rfl, by simp⟩
  | cons c rest ih =>
    rcases c with ⟨dirName, hasNfo⟩
    rcases ih with ⟨rs, hrs, hall⟩
    refine ⟨(CState.skippedExcluded, []) :: rs, ?_, ?_⟩
    · have hskip : process_candidate ek cfg allSites (w dirName) (wk dirName) dirName hasNfo
          = Except.ok (CState.skippedExcluded, []) :=
        process_skip_excluded ek cfg allSites (w dirName) (wk dirName) dirName hasNfo
          (excluded_of_mem ek dirName "" hne hempty (pyIn_empty_pat dirName))
      simp [run_pass, hskip, hrs]
    · intro r hr
      rcases List.mem_cons.mp hr with h | h
      · exact h
      · exact hall r h

/-- C10, witness: the trailing-comma configuration 预告, over two
candidates, one of which a source would have resolved. -/
theorem c10_witness :
    ∃ rs, run_pass "预告," [1] [⟨1, "S", "u", "c"⟩] (fun _ _ => Fetch.html true)
        (fun _ => true) [("甲", false), ("乙", true)] = Except.ok rs
      ∧ ∀ r ∈ rs, r = (CState.skippedExcluded, ([] : List Event)) :=
  c10 "预告," [1] [⟨1, "S", "u", "c"⟩] (fun _ _ => Fetch.html true) (fun _ => true)
    [("甲", false), ("乙", true)] (by decide) (by decide)

end ShortPlay
